import Mathlib

/-!
A shallow embedding of `propagator.go` from the Datadog propagator for
OpenTelemetry Go (package `datadog`), together with proofs about the
claims of its specification.

Modelling conventions:
* Go strings are modelled as Lean `String`s (lists of characters).  All
  strings handled by the propagator (hex and decimal identifiers, the
  sampling priority) are ASCII, where Go's byte-level length and slicing
  coincide with character-level length and slicing.
* `strconv.ParseUint(s, base, 64)` is modelled by `parseUint` returning
  `Option Nat` (`none` for both syntax and range errors; the Go callers
  only ever test `err != nil`).
* `strconv.FormatUint(v, base)` is modelled by `formatUint`, producing
  minimal-width lowercase digits, `"0"` for zero.
* `strconv.Atoi` is modelled by `atoi : String → Option Int`
  (64-bit platform: values must fit in a signed 64-bit integer).
* OTel identifiers `trace.TraceID` ([16]byte) and `trace.SpanID`
  ([8]byte) are modelled by their numeric value (`Nat`); validity is
  being nonzero and the canonical string form is the zero-padded
  lowercase hex rendering (32 resp. 16 characters).
  `trace.TraceIDFromHex` / `trace.SpanIDFromHex` demand the exact
  width, lowercase hex characters only, and a nonzero value; the
  distinct otel error values are collapsed to `Except Unit` since the
  propagator only tests `err != nil`.
* `trace.TraceFlags` is used by this code only through the sampled bit
  (`FlagsSampled`), modelled as a `Bool`.
* `Inject` is modelled as the list of `carrier.Set(key, value)` calls it
  performs, in order; an untouched carrier is the empty list.
* The ambient `context.Context` is modelled by an inductive `Context`
  on which `ContextWithRemoteSpanContext` is a constructor, so
  "returned unchanged" is plain equality.
-/

set_option maxHeartbeats 1000000

namespace Datadog

/-- Digit value of one character, as in Go `strconv.ParseUint`:
`'0'..'9'`, `'a'..'z'`, `'A'..'Z'` map to 0..35, anything else is a
syntax error.  (Go lowercases with `c | 0x20` and then checks ranges;
this table is extensionally the same.) -/
def goDigitVal (c : Char) : Option Nat :=
  if '0' ≤ c ∧ c ≤ '9' then some (c.toNat - '0'.toNat)
  else if 'a' ≤ c ∧ c ≤ 'z' then some (c.toNat - 'a'.toNat + 10)
  else if 'A' ≤ c ∧ c ≤ 'Z' then some (c.toNat - 'A'.toNat + 10)
  else none

/-- The digit-accumulation loop of Go `strconv.ParseUint`: fails on the
first character that is not a digit of the base, otherwise folds
`acc * base + d`.  (The Go loop checks overflow per step against the
64-bit cutoff; the caller `parseUint` performs the equivalent final
range check, and errors are not distinguished by kind here.) -/
def parseDigitsM (base acc : Nat) : List Char → Option Nat
  | [] => some acc
  | c :: cs =>
    match goDigitVal c with
    | none => none
    | some d => if d < base then parseDigitsM base (acc * base + d) cs else none

/-- Go `strconv.ParseUint(s, base, 64)`: empty input is a syntax error,
every character must be a digit of the base, and the value must fit in
64 bits.  `none` stands for a non-nil error of either kind. -/
def parseUint (s : String) (base : Nat) : Option Nat :=
  if s.data = [] then none
  else
    match parseDigitsM base 0 s.data with
    | none => none
    | some v => if v < 2 ^ 64 then some v else none

/-- Little-endian digit list of `n` in base `b`, with explicit fuel so
that the definition is structurally recursive and kernel-evaluable.
With `fuel ≥ n` this agrees with `Nat.digits b n` (see
`digitsLE_eq_digits`). -/
def digitsLE (b : Nat) : Nat → Nat → List Nat
  | _, 0 => []
  | 0, _ + 1 => []
  | fuel + 1, n + 1 => ((n + 1) % b) :: digitsLE b fuel ((n + 1) / b)

/-- Go `strconv.FormatUint(v, base)`: minimal-width representation in
lowercase digits, `"0"` for zero. -/
def formatUint (v base : Nat) : String :=
  if v = 0 then "0"
  else String.mk (((digitsLE base v v).reverse).map Nat.digitChar)

/-- Go `strconv.Atoi(s)` on a 64-bit platform: optional single sign,
then decimal digits; the signed value must fit in 64 bits.  `none`
stands for a non-nil error. -/
def atoi (s : String) : Option Int :=
  match s.data with
  | [] => none
  | c :: cs =>
    let neg : Bool := c = '-'
    let ds : List Char := if c = '-' ∨ c = '+' then cs else c :: cs
    if ds = [] then none
    else
      match parseDigitsM 10 0 ds with
      | none => none
      | some n =>
        if neg then
          if n ≤ 2 ^ 63 then some (-(n : Int)) else none
        else
          if n ≤ 2 ^ 63 - 1 then some (n : Int) else none

/-- Go `fmt.Sprintf` with a zero-flagged width (`%032s` / `%016s`):
left-pad with `c` up to width `w`; a string at least `w` long is
returned unchanged. -/
def leftPad (c : Char) (w : Nat) (s : String) : String :=
  String.mk (List.replicate (w - s.length) c ++ s.data)

/-- The character test of otel's `decodeHex`: only `'0'..'9'` and
`'a'..'f'` are accepted (uppercase is rejected). -/
def isLowerHexDigit (c : Char) : Bool :=
  ('0' ≤ c && c ≤ '9') || ('a' ≤ c && c ≤ 'f')

/-- Common body of otel `trace.TraceIDFromHex` / `trace.SpanIDFromHex`:
exact width, lowercase hex characters only, nonzero value.  The digit
fold reuses `parseDigitsM 16`, which cannot fail on validated input. -/
def idFromHex (width : Nat) (h : String) : Except Unit Nat :=
  if h.length ≠ width then .error ()
  else if ¬ (h.data.all isLowerHexDigit) then .error ()
  else
    match parseDigitsM 16 0 h.data with
    | none => .error ()
    | some v => if v = 0 then .error () else .ok v

/-- otel `trace.TraceIDFromHex`: 32 lowercase hex characters, nonzero. -/
def TraceIDFromHex (h : String) : Except Unit Nat := idFromHex 32 h

/-- otel `trace.SpanIDFromHex`: 16 lowercase hex characters, nonzero. -/
def SpanIDFromHex (h : String) : Except Unit Nat := idFromHex 16 h

/-- otel `trace.TraceID.String()`: 32 lowercase hex characters. -/
def traceIDString (v : Nat) : String := leftPad '0' 32 (formatUint v 16)

/-- otel `trace.SpanID.String()`: 16 lowercase hex characters. -/
def spanIDString (v : Nat) : String := leftPad '0' 16 (formatUint v 16)

/-- otel `trace.SpanContext` restricted to the fields this propagator
uses: the 128-bit trace identifier and 64-bit span identifier as
numbers, and the sampled flag of `TraceFlags`. -/
structure SpanContext where
  traceID : Nat := 0
  spanID : Nat := 0
  sampled : Bool := false
deriving DecidableEq

/-- otel `SpanContext.IsValid()`: both identifiers nonzero. -/
def SpanContext.IsValid (sc : SpanContext) : Bool :=
  !(sc.traceID == 0) && !(sc.spanID == 0)

/-- `var empty = trace.SpanContext{}` from `propagator.go`. -/
def empty : SpanContext := {}

/-- The five error values of `propagator.go`. -/
inductive ExtractErr where
  | malformedTraceID
  | malformedSpanID
  | invalidTraceIDHeader
  | invalidSpanIDHeader
  | invalidSamplingPriorityHeader
deriving DecidableEq

/-- `traceIDHeaderKey` from `propagator.go`. -/
def traceIDHeaderKey : String := "x-datadog-trace-id"

/-- `parentIDHeaderKey` from `propagator.go`. -/
def parentIDHeaderKey : String := "x-datadog-parent-id"

/-- `priorityHeaderKey` from `propagator.go`. -/
def priorityHeaderKey : String := "x-datadog-sampling-priority"

/-- `notSampled` from `propagator.go`. -/
def notSampled : String := "0"

/-- `isSampled` from `propagator.go`. -/
def isSampled : String := "1"

/-- `convertOTtoDD` from `propagator.go`: inputs shorter than 16
characters yield `""`; longer inputs are sliced with `id[16:]`; the
remainder is parsed as 64-bit hex and re-emitted as decimal, with any
parse error yielding `""`. -/
def convertOTtoDD (id : String) : String :=
  if id.length < 16 then ""
  else
    let id2 := if id.length > 16 then String.mk (id.data.drop 16) else id
    match parseUint id2 16 with
    | none => ""
    | some intValue => formatUint intValue 10

/-- `convertDDtoOT` from `propagator.go`: parse as 64-bit decimal
(`("", false)` on error), re-emit as minimal-width hex. -/
def convertDDtoOT (id : String) : String × Bool :=
  match parseUint id 10 with
  | none => ("", false)
  | some u => (formatUint u 16, true)

/-- `extract` from `propagator.go` (the unexported worker): the strictly
ordered trace-id / span-id / sampling pipeline, returning the assembled
`trace.NewSpanContext(scc)` or `empty` plus one of the five errors. -/
def extract (traceID spanID sampled : String) : SpanContext × Option ExtractErr :=
  match convertDDtoOT traceID with
  | (_, false) => (empty, some .malformedTraceID)
  | (t, true) =>
    let tidStep : Except ExtractErr Nat :=
      if t = "" then .ok 0
      else
        let id := if t.length < 32 then leftPad '0' 32 t else t
        match TraceIDFromHex id with
        | .error _ => .error .invalidTraceIDHeader
        | .ok x => .ok x
    match tidStep with
    | .error e => (empty, some e)
    | .ok tid =>
      match convertDDtoOT spanID with
      | (_, false) => (empty, some .malformedSpanID)
      | (s, true) =>
        let sidStep : Except ExtractErr Nat :=
          if s = "" then .ok 0
          else
            let id := if s.length < 16 then leftPad '0' 16 s else s
            match SpanIDFromHex id with
            | .error _ => .error .invalidSpanIDHeader
            | .ok x => .ok x
        match sidStep with
        | .error e => (empty, some e)
        | .ok sid =>
          match atoi sampled with
          | none => (empty, some .invalidSamplingPriorityHeader)
          | some n =>
            ({ traceID := tid, spanID := sid, sampled := decide (1 ≤ n) }, none)

/-- `Propagator.Inject` from `propagator.go`, modelled as the ordered
list of `carrier.Set` calls performed for the span context found in the
ambient context: nothing is written when either identifier is invalid
(zero) or renders to the empty string; otherwise the three headers are
written. -/
def Inject (sc : SpanContext) : List (String × String) :=
  if sc.traceID = 0 ∨ sc.spanID = 0 then []
  else
    let traceID := traceIDString sc.traceID
    let parentID := spanIDString sc.spanID
    if traceID = "" ∨ parentID = "" then []
    else
      let samplingFlag := if sc.sampled then isSampled else notSampled
      [(traceIDHeaderKey, convertOTtoDD traceID),
       (parentIDHeaderKey, convertOTtoDD parentID),
       (priorityHeaderKey, samplingFlag)]

/-- The ambient `context.Context`, abstracted to what this code does
with it: `trace.ContextWithRemoteSpanContext` is `withRemote`. -/
inductive Context where
  | base : Context
  | withRemote : Context → SpanContext → Context
deriving DecidableEq

/-- `Propagator.Extract` from `propagator.go`, applied to the three
header values read from the carrier: on any extraction error or an
invalid resulting span context the original context is returned
unchanged, otherwise the new remote span context is attached. -/
def Extract (ctx : Context) (traceID spanID sampled : String) : Context :=
  match extract traceID spanID sampled with
  | (sc, err) =>
    if err ≠ none ∨ sc.IsValid = false then ctx
    else Context.withRemote ctx sc

/-- `Propagator.Fields` from `propagator.go`. -/
def Fields : List String := [traceIDHeaderKey, parentIDHeaderKey, priorityHeaderKey]

/-! ### Basic facts about the string and digit helpers -/

theorem string_length_mk (L : List Char) : (String.mk L).length = L.length := rfl

theorem string_data_mk (L : List Char) : (String.mk L).data = L := rfl

theorem string_mk_data (s : String) : String.mk s.data = s := rfl

theorem string_length_data (s : String) : s.length = s.data.length := rfl

/-- With enough fuel, `digitsLE` agrees with Mathlib's `Nat.digits`. -/
theorem digitsLE_eq_digits {b : Nat} (hb : 2 ≤ b) :
    ∀ fuel n, n ≤ fuel → digitsLE b fuel n = Nat.digits b n := by
  intro fuel
  induction fuel with
  | zero =>
    intro n hn
    have : n = 0 := by omega
    subst this
    simp [digitsLE]
  | succ f ih =>
    intro n hn
    match n with
    | 0 => simp [digitsLE]
    | m + 1 =>
      rw [digitsLE, Nat.digits_def' (by omega : 1 < b) (Nat.succ_pos m)]
      congr 1
      apply ih
      have : (m + 1) / b < m + 1 := Nat.div_lt_self (Nat.succ_pos m) (by omega)
      omega

theorem goDigitVal_digitChar : ∀ d, d < 16 → goDigitVal (Nat.digitChar d) = some d := by
  decide

theorem isLowerHexDigit_digitChar : ∀ d, d < 16 → isLowerHexDigit (Nat.digitChar d) = true := by
  decide

/-- Folding digits most-significant first over the reversed little-endian
digit list computes the value (`Nat.ofDigits`). -/
theorem foldl_reverse_ofDigits (b : Nat) :
    ∀ (L : List Nat) (a : Nat),
      L.reverse.foldl (fun x d => x * b + d) a = a * b ^ L.length + Nat.ofDigits b L := by
  intro L
  induction L with
  | nil => intro a; simp [Nat.ofDigits_nil]
  | cons d L ih =>
    intro a
    simp only [List.reverse_cons, List.foldl_append, ih, List.foldl_cons, List.foldl_nil,
      Nat.ofDigits_cons, List.length_cons, Nat.cast_id]
    ring

theorem foldl_digits_eq {b : Nat} (_hb : 2 ≤ b) (v : Nat) :
    (Nat.digits b v).reverse.foldl (fun x d => x * b + d) 0 = v := by
  rw [foldl_reverse_ofDigits]
  simp [Nat.ofDigits_digits]

/-- `parseDigitsM` succeeds on rendered digit lists and computes the
big-endian fold. -/
theorem parseDigitsM_map_digitChar {b : Nat} (hb : b ≤ 16) :
    ∀ (L : List Nat) (acc : Nat), (∀ d ∈ L, d < b) →
      parseDigitsM b acc (L.map Nat.digitChar) =
        some (L.foldl (fun x d => x * b + d) acc) := by
  intro L
  induction L with
  | nil => intro acc _; rfl
  | cons d L ih =>
    intro acc h
    have hd : d < b := h d (List.mem_cons_self d L)
    have hd16 : d < 16 := lt_of_lt_of_le hd hb
    simp only [List.map_cons, parseDigitsM, goDigitVal_digitChar d hd16, List.foldl_cons]
    rw [if_pos hd]
    exact ih (acc * b + d) (fun x hx => h x (List.mem_cons_of_mem d hx))

/-- Leading `'0'` characters do not change the accumulated value. -/
theorem parseDigitsM_replicate_zero {b : Nat} (hb : 0 < b) :
    ∀ (k : Nat) (L : List Char),
      parseDigitsM b 0 (List.replicate k '0' ++ L) = parseDigitsM b 0 L := by
  intro k
  induction k with
  | zero => intro L; rfl
  | succ n ih =>
    intro L
    have h0 : goDigitVal '0' = some 0 := by decide
    simp only [List.replicate_succ, List.cons_append, parseDigitsM, h0]
    rw [if_pos hb]
    simpa using ih L

/-- The character list of a nonzero `formatUint` rendering. -/
theorem formatUint_data (b v : Nat) (hb : 2 ≤ b) (hv : v ≠ 0) :
    (formatUint v b).data = (Nat.digits b v).reverse.map Nat.digitChar := by
  rw [formatUint, if_neg hv, digitsLE_eq_digits hb v v le_rfl, string_data_mk]

theorem formatUint_ne_empty (v b : Nat) (hb : 2 ≤ b) : formatUint v b ≠ "" := by
  by_cases h0 : v = 0
  · subst h0
    simp [formatUint]
  · intro hcontra
    have hdat : (formatUint v b).data = [] := by rw [hcontra]
    rw [formatUint_data b v hb h0] at hdat
    simp only [List.map_eq_nil_iff, List.reverse_eq_nil_iff] at hdat
    exact (Nat.digits_ne_nil_iff_ne_zero.mpr h0) hdat

/-- Width bound: a value below `b ^ w` renders in at most `w` digits. -/
theorem formatUint_length_le {b v w : Nat} (hb : 2 ≤ b) (hw : 1 ≤ w) (hv : v < b ^ w) :
    (formatUint v b).length ≤ w := by
  by_cases h0 : v = 0
  · subst h0
    rw [formatUint, if_pos rfl]
    exact hw
  · have hlen : (formatUint v b).length = (Nat.digits b v).length := by
      rw [string_length_data, formatUint_data b v hb h0]
      simp
    rw [hlen, Nat.digits_len b v (by omega) h0]
    have := Nat.log_lt_of_lt_pow h0 hv
    omega

theorem parseUint_lt {s : String} {b v : Nat} (h : parseUint s b = some v) : v < 2 ^ 64 := by
  rw [parseUint] at h
  split at h
  · exact absurd h (by simp)
  · split at h
    · exact absurd h (by simp)
    · split at h
      · cases h; assumption
      · exact absurd h (by simp)

/-- Round trip: parsing a possibly zero-padded rendering recovers the
value (bases up to 16, values within the 64-bit range check). -/
theorem parseUint_pad_formatUint {b : Nat} (hb : 2 ≤ b) (hb16 : b ≤ 16)
    (k v : Nat) (hv : v < 2 ^ 64) :
    parseUint (String.mk (List.replicate k '0' ++ (formatUint v b).data)) b = some v := by
  have hne : (formatUint v b).data ≠ [] := by
    intro hx
    apply formatUint_ne_empty v b hb
    have : formatUint v b = String.mk (formatUint v b).data := rfl
    rw [this, hx]
  have hnonempty : List.replicate k '0' ++ (formatUint v b).data ≠ [] := by
    simp [hne]
  rw [parseUint, string_data_mk, if_neg hnonempty]
  have hparse : parseDigitsM b 0 (List.replicate k '0' ++ (formatUint v b).data) = some v := by
    rw [parseDigitsM_replicate_zero (by omega) k]
    by_cases h0 : v = 0
    · subst h0
      have : (formatUint 0 b).data = ['0'] := rfl
      rw [this]
      have h00 : goDigitVal '0' = some 0 := by decide
      simp [parseDigitsM, h00, if_pos (by omega : 0 < b)]
    · rw [formatUint_data b v hb h0,
        parseDigitsM_map_digitChar hb16 ((Nat.digits b v).reverse) 0
          (fun d hd => Nat.digits_lt_base (by omega) (List.mem_reverse.mp hd)),
        foldl_digits_eq hb v]
  rw [hparse]
  simp only [if_pos hv]

/-! ### Padding and identifier construction -/

theorem leftPad_length (c : Char) (w : Nat) (s : String) (h : s.length ≤ w) :
    (leftPad c w s).length = w := by
  rw [leftPad, string_length_mk, List.length_append, List.length_replicate,
    ← string_length_data]
  omega

theorem leftPad_eq_self {c : Char} {w : Nat} {s : String} (h : w ≤ s.length) :
    leftPad c w s = s := by
  rw [leftPad, Nat.sub_eq_zero_of_le h, List.replicate_zero, List.nil_append, string_mk_data]

/-- Building a fixed-width identifier from the zero-padded rendering of a
nonzero value in range recovers exactly that value. -/
theorem idFromHex_pad (w v : Nat) (hw : 1 ≤ w) (hv : v < 16 ^ w) (h0 : v ≠ 0) :
    idFromHex w (leftPad '0' w (formatUint v 16)) = .ok v := by
  have hlen : (formatUint v 16).length ≤ w := formatUint_length_le (by norm_num) hw hv
  have hdata : (formatUint v 16).data = (Nat.digits 16 v).reverse.map Nat.digitChar :=
    formatUint_data 16 v (by norm_num) h0
  have hpad : (leftPad '0' w (formatUint v 16)).data
      = List.replicate (w - (formatUint v 16).length) '0' ++ (formatUint v 16).data := rfl
  have hplen : (leftPad '0' w (formatUint v 16)).length = w := leftPad_length _ _ _ hlen
  have hall : (leftPad '0' w (formatUint v 16)).data.all isLowerHexDigit = true := by
    rw [hpad, List.all_append, hdata]
    simp only [Bool.and_eq_true, List.all_eq_true]
    constructor
    · intro c hc
      rw [List.eq_of_mem_replicate hc]
      decide
    · intro c hc
      obtain ⟨d, hd, rfl⟩ := List.mem_map.mp hc
      exact isLowerHexDigit_digitChar d (Nat.digits_lt_base (by norm_num) (List.mem_reverse.mp hd))
  have hparse : parseDigitsM 16 0 ((leftPad '0' w (formatUint v 16)).data) = some v := by
    rw [hpad, parseDigitsM_replicate_zero (by norm_num), hdata,
      parseDigitsM_map_digitChar (by norm_num) ((Nat.digits 16 v).reverse) 0
        (fun d hd => Nat.digits_lt_base (by norm_num) (List.mem_reverse.mp hd)),
      foldl_digits_eq (by norm_num) v]
  rw [idFromHex, if_neg (by simp [hplen]), if_neg (by simp [hall]), hparse]
  simp [h0]

theorem TraceIDFromHex_pad (v : Nat) (hv : v < 2 ^ 64) (h0 : v ≠ 0) :
    TraceIDFromHex (leftPad '0' 32 (formatUint v 16)) = .ok v := by
  have h16 : (16 : Nat) ^ 32 = 2 ^ 128 := by norm_num
  rw [TraceIDFromHex]
  exact idFromHex_pad 32 v (by norm_num) (by omega) h0

theorem SpanIDFromHex_pad (v : Nat) (hv : v < 2 ^ 64) (h0 : v ≠ 0) :
    SpanIDFromHex (leftPad '0' 16 (formatUint v 16)) = .ok v := by
  have h16 : (16 : Nat) ^ 16 = 2 ^ 64 := by norm_num
  rw [SpanIDFromHex]
  exact idFromHex_pad 16 v (by norm_num) (by omega) h0

theorem convertDDtoOT_of_parse {s : String} {v : Nat} (h : parseUint s 10 = some v) :
    convertDDtoOT s = (formatUint v 16, true) := by
  rw [convertDDtoOT, h]

/-! ### The extraction pipeline, path by path -/

theorem extract_malformedTraceID {t : String} (h : parseUint t 10 = none) (s p : String) :
    extract t s p = (empty, some .malformedTraceID) := by
  simp only [extract, convertDDtoOT, h]

theorem extract_invalidTraceIDHeader {t : String} {v : Nat} (h : parseUint t 10 = some v)
    (herr : TraceIDFromHex (leftPad '0' 32 (formatUint v 16)) = .error ()) (s p : String) :
    extract t s p = (empty, some .invalidTraceIDHeader) := by
  have hv : v < 2 ^ 64 := parseUint_lt h
  have h1632 : (16 : Nat) ^ 16 = 2 ^ 64 := by norm_num
  have hne : formatUint v 16 ≠ "" := formatUint_ne_empty v 16 (by norm_num)
  have hlt : (formatUint v 16).length < 32 := by
    have := formatUint_length_le (b := 16) (v := v) (w := 16) (by norm_num) (by norm_num)
      (by omega)
    omega
  simp only [extract, convertDDtoOT, h, hne, hlt, if_true, if_false, ite_true, ite_false,
    herr]

theorem extract_malformedSpanID {t s : String} {vt : Nat}
    (ht : parseUint t 10 = some vt) (ht0 : vt ≠ 0) (hs : parseUint s 10 = none) (p : String) :
    extract t s p = (empty, some .malformedSpanID) := by
  have hvt : vt < 2 ^ 64 := parseUint_lt ht
  have h1632 : (16 : Nat) ^ 16 = 2 ^ 64 := by norm_num
  have hne : formatUint vt 16 ≠ "" := formatUint_ne_empty vt 16 (by norm_num)
  have hlt : (formatUint vt 16).length < 32 := by
    have := formatUint_length_le (b := 16) (v := vt) (w := 16) (by norm_num) (by norm_num)
      (by omega)
    omega
  simp only [extract, convertDDtoOT, ht, hs, hne, hlt, ite_true, ite_false,
    TraceIDFromHex_pad vt hvt ht0]

theorem extract_invalidSpanIDHeader {t s : String} {vt vs : Nat}
    (ht : parseUint t 10 = some vt) (ht0 : vt ≠ 0) (hs : parseUint s 10 = some vs)
    (herr : SpanIDFromHex (if (formatUint vs 16).length < 16
        then leftPad '0' 16 (formatUint vs 16) else formatUint vs 16) = .error ())
    (p : String) :
    extract t s p = (empty, some .invalidSpanIDHeader) := by
  have hvt : vt < 2 ^ 64 := parseUint_lt ht
  have h1632 : (16 : Nat) ^ 16 = 2 ^ 64 := by norm_num
  have hnet : formatUint vt 16 ≠ "" := formatUint_ne_empty vt 16 (by norm_num)
  have hnes : formatUint vs 16 ≠ "" := formatUint_ne_empty vs 16 (by norm_num)
  have hlt : (formatUint vt 16).length < 32 := by
    have := formatUint_length_le (b := 16) (v := vt) (w := 16) (by norm_num) (by norm_num)
      (by omega)
    omega
  simp only [extract, convertDDtoOT, ht, hs, hnet, hnes, hlt, ite_true, ite_false,
    TraceIDFromHex_pad vt hvt ht0, herr]

/-- The fully successful extraction path: both identifier texts parse to
nonzero 64-bit values, so the result is determined by the sampling text
alone. -/
theorem extract_success (t s p : String) (vt vs : Nat)
    (ht : parseUint t 10 = some vt) (ht0 : vt ≠ 0)
    (hs : parseUint s 10 = some vs) (hs0 : vs ≠ 0) :
    extract t s p =
      match atoi p with
      | none => (empty, some .invalidSamplingPriorityHeader)
      | some n => ({ traceID := vt, spanID := vs, sampled := decide (1 ≤ n) }, none) := by
  have hvt : vt < 2 ^ 64 := parseUint_lt ht
  have hvs : vs < 2 ^ 64 := parseUint_lt hs
  have h1632 : (16 : Nat) ^ 16 = 2 ^ 64 := by norm_num
  have hnet : formatUint vt 16 ≠ "" := formatUint_ne_empty vt 16 (by norm_num)
  have hnes : formatUint vs 16 ≠ "" := formatUint_ne_empty vs 16 (by norm_num)
  have hlt : (formatUint vt 16).length < 32 := by
    have := formatUint_length_le (b := 16) (v := vt) (w := 16) (by norm_num) (by norm_num)
      (by omega)
    omega
  have hsid : (if (formatUint vs 16).length < 16
      then leftPad '0' 16 (formatUint vs 16) else formatUint vs 16)
      = leftPad '0' 16 (formatUint vs 16) := by
    split
    · rfl
    · next hge => exact (leftPad_eq_self (by omega)).symm
  simp only [extract, convertDDtoOT, ht, hs, hnet, hnes, hlt, ite_true, ite_false, hsid,
    TraceIDFromHex_pad vt hvt ht0, SpanIDFromHex_pad vs hvs hs0]

/-! ### The claims -/

/-- C1: the claim states that for every hex identifier longer than 16
characters `convertOTtoDD` discards all but the last 16 characters, so
that the result equals the encoding of the trailing 16 characters.  The
code instead slices `id[16:]`, discarding the FIRST 16 characters; on
the 17-character input of seventeen `'1'`s this keeps only the final
character and encodes to `"1"`, while encoding the trailing 16
characters (sixteen `'1'`s) gives `"1229782938247303441"`.  The claim
matches the code comment ("only the last 64-bits / 16 characters are
used"), so the code contradicts its own documentation here. -/
theorem C1_truncation_code_bug :
    convertOTtoDD "11111111111111111" = "1" ∧
    convertOTtoDD "1111111111111111" = "1229782938247303441" ∧
    convertOTtoDD "11111111111111111" ≠ convertOTtoDD "1111111111111111" := by
  refine ⟨by decide, by decide, by decide⟩

/-- C2 counterexample: the claim states that decoding the empty decimal
string succeeds with an empty native string and is not a parse failure;
in the code `strconv.ParseUint("", 10, 64)` fails, so `convertDDtoOT`
reports failure on the empty string. -/
theorem C2_empty_decode_counterexample : convertDDtoOT "" = ("", false) := by decide

/-- C2 (amended): decoding an empty decimal identifier string is a
parse failure (`convertDDtoOT "" = ("", false)`), and a successful
decode never yields an empty native string, so the skip branch for an
empty decoded sub-field in `extract` is unreachable. -/
theorem C2_empty_decode_amended :
    convertDDtoOT "" = ("", false) ∧
    (∀ s r, convertDDtoOT s = (r, true) → r ≠ "") := by
  refine ⟨by decide, ?_⟩
  intro s r h
  rw [convertDDtoOT] at h
  cases hp : parseUint s 10 with
  | none => rw [hp] at h; cases h
  | some u =>
    rw [hp] at h
    cases h
    exact formatUint_ne_empty u 16 (by norm_num)

/-- Witness for C2's amended theorem at the concrete decode of `"5"`. -/
theorem C2_empty_decode_witness :
    convertDDtoOT "" = ("", false) ∧ ("5" : String) ≠ "" :=
  ⟨C2_empty_decode_amended.1, C2_empty_decode_amended.2 "5" "5" (by decide)⟩

/-- C3: for trace-id and span-id texts that decode successfully (they
parse as nonzero 64-bit decimals), the sampling step always runs: an
empty sampling text yields `InvalidSamplingPriorityHeader` (and so does
any text `strconv.Atoi` rejects), a parsed value `≥ 1` sets the sampled
flag, and a parsed value `≤ 0` leaves it unset. -/
theorem C3_sampling_always_runs (t s : String) (vt vs : Nat)
    (ht : parseUint t 10 = some vt) (ht0 : vt ≠ 0)
    (hs : parseUint s 10 = some vs) (hs0 : vs ≠ 0) :
    extract t s "" = (empty, some .invalidSamplingPriorityHeader) ∧
    (∀ p, atoi p = none → extract t s p = (empty, some .invalidSamplingPriorityHeader)) ∧
    (∀ p n, atoi p = some n → 1 ≤ n →
      extract t s p = ({ traceID := vt, spanID := vs, sampled := true }, none)) ∧
    (∀ p n, atoi p = some n → n ≤ 0 →
      extract t s p = ({ traceID := vt, spanID := vs, sampled := false }, none)) := by
  refine ⟨?_, ?_, ?_, ?_⟩
  · rw [extract_success t s "" vt vs ht ht0 hs hs0]
    rfl
  · intro p hp
    rw [extract_success t s p vt vs ht ht0 hs hs0, hp]
  · intro p n hp hn
    rw [extract_success t s p vt vs ht ht0 hs hs0, hp]
    have hd : decide (1 ≤ n) = true := decide_eq_true hn
    show ({ traceID := vt, spanID := vs, sampled := decide (1 ≤ n) }, none) =
      (({ traceID := vt, spanID := vs, sampled := true } : SpanContext), none)
    rw [hd]
  · intro p n hp hn
    rw [extract_success t s p vt vs ht ht0 hs hs0, hp]
    have hd : decide (1 ≤ n) = false := decide_eq_false (by omega)
    show ({ traceID := vt, spanID := vs, sampled := decide (1 ≤ n) }, none) =
      (({ traceID := vt, spanID := vs, sampled := false } : SpanContext), none)
    rw [hd]

/-- Witness for C3 at the test vector of the repository. -/
theorem C3_sampling_always_runs_witness :
    extract "8778793551513751462" "6023947403358210776" "" =
      (empty, some .invalidSamplingPriorityHeader) :=
  (C3_sampling_always_runs "8778793551513751462" "6023947403358210776"
    8778793551513751462 6023947403358210776
    (by decide) (by decide) (by decide) (by decide)).1

/-- C4: for every 64-bit value `v`, rendering `v` as an exactly
16-character hex string, encoding it with `convertOTtoDD` and decoding
the result with `convertDDtoOT` succeeds and returns the hex form of
`v`, and parsing that hex form recovers `v`. -/
theorem C4_roundtrip (v : Nat) (hv : v < 2 ^ 64) :
    convertDDtoOT (convertOTtoDD (leftPad '0' 16 (formatUint v 16))) =
      (formatUint v 16, true) ∧
    parseUint (formatUint v 16) 16 = some v := by
  have h1632 : (16 : Nat) ^ 16 = 2 ^ 64 := by norm_num
  have h16 : parseUint (formatUint v 16) 16 = some v := by
    have h := parseUint_pad_formatUint (b := 16) (by norm_num) (by norm_num) 0 v hv
    simpa [string_mk_data] using h
  have h10 : parseUint (formatUint v 10) 10 = some v := by
    have h := parseUint_pad_formatUint (b := 10) (by norm_num) (by norm_num) 0 v hv
    simpa [string_mk_data] using h
  have hlen : (formatUint v 16).length ≤ 16 :=
    formatUint_length_le (by norm_num) (by norm_num) (by omega)
  have hpadlen : (leftPad '0' 16 (formatUint v 16)).length = 16 := leftPad_length _ _ _ hlen
  have hparse_pad : parseUint (leftPad '0' 16 (formatUint v 16)) 16 = some v :=
    parseUint_pad_formatUint (b := 16) (by norm_num) (by norm_num)
      (16 - (formatUint v 16).length) v hv
  have hOT : convertOTtoDD (leftPad '0' 16 (formatUint v 16)) = formatUint v 10 := by
    simp [convertOTtoDD, hpadlen, hparse_pad]
  refine ⟨?_, h16⟩
  rw [hOT, convertDDtoOT, h10]

/-- Witness for C4 at the span identifier of the repository's tests. -/
theorem C4_roundtrip_witness :
    convertDDtoOT (convertOTtoDD (leftPad '0' 16 (formatUint 6023947403358210776 16))) =
      (formatUint 6023947403358210776 16, true) ∧
    parseUint (formatUint 6023947403358210776 16) 16 = some 6023947403358210776 :=
  C4_roundtrip 6023947403358210776 (by norm_num)

/-- C5 counterexample: the claim's concrete example names the trace
identifier `"00000000000000000000000000075bcd15"`, a 34-character
string; the code pads to exactly 32 characters, and the identifier
actually produced for decimal `"123456789"` is the 32-character
`"000000000000000000000000075bcd15"`. -/
theorem C5_padding_counterexample :
    extract "123456789" "987654321" "0" =
      ({ traceID := 123456789, spanID := 987654321, sampled := false }, none) ∧
    traceIDString 123456789 = "000000000000000000000000075bcd15" ∧
    traceIDString 123456789 ≠ "00000000000000000000000000075bcd15" ∧
    ("00000000000000000000000000075bcd15" : String).length = 34 := by
  refine ⟨by decide, by decide, by decide, by decide⟩

/-- C5 (amended): for every decimal identifier string parsing as a
64-bit value whose hex form is shorter than the target width, the hex
form is left-padded with zeros to exactly 32 characters for the trace
identifier and exactly 16 for the span identifier before the identifier
is constructed, and the constructed identifier carries exactly the
parsed value; in particular decimal `"123456789"` decodes to hex
`075bcd15` and produces the 32-character trace identifier
`000000000000000000000000075bcd15`. -/
theorem C5_padding_amended (t : String) (v : Nat) (h : parseUint t 10 = some v)
    (hshort : (formatUint v 16).length < 32) :
    convertDDtoOT t = (formatUint v 16, true) ∧
    (leftPad '0' 32 (formatUint v 16)).length = 32 ∧
    (leftPad '0' 16 (formatUint v 16)).length = 16 ∧
    (v ≠ 0 → TraceIDFromHex (leftPad '0' 32 (formatUint v 16)) = .ok v ∧
      SpanIDFromHex (leftPad '0' 16 (formatUint v 16)) = .ok v) ∧
    extract "123456789" "987654321" "0" =
      ({ traceID := 123456789, spanID := 987654321, sampled := false }, none) ∧
    traceIDString 123456789 = "000000000000000000000000075bcd15" := by
  have hv : v < 2 ^ 64 := parseUint_lt h
  have h1632 : (16 : Nat) ^ 16 = 2 ^ 64 := by norm_num
  have hlen : (formatUint v 16).length ≤ 16 :=
    formatUint_length_le (by norm_num) (by norm_num) (by omega)
  refine ⟨convertDDtoOT_of_parse h, leftPad_length _ _ _ (by omega),
    leftPad_length _ _ _ hlen, ?_, by decide, by decide⟩
  intro h0
  exact ⟨TraceIDFromHex_pad v hv h0, SpanIDFromHex_pad v hv h0⟩

/-- Witness for C5's amended theorem at decimal `"123456789"`. -/
theorem C5_padding_witness :
    TraceIDFromHex (leftPad '0' 32 (formatUint 123456789 16)) = .ok 123456789 :=
  ((C5_padding_amended "123456789" 123456789 (by decide) (by decide)).2.2.2.1
    (by decide)).1

/-- C6: extraction is strictly ordered with first failure winning: an
empty trace-id text fails with `MalformedTraceID` whatever the span-id
and sampling texts are, and a well-formed trace-id text with an empty
span-id text fails with `MalformedSpanID`. -/
theorem C6_first_failure_order :
    (∀ s p, extract "" s p = (empty, some .malformedTraceID)) ∧
    (∀ t p vt, parseUint t 10 = some vt → vt ≠ 0 →
      extract t "" p = (empty, some .malformedSpanID)) := by
  constructor
  · intro s p
    exact extract_malformedTraceID (by decide) s p
  · intro t p vt ht ht0
    exact extract_malformedSpanID ht ht0 (by decide) p

/-- Witness for C6 at the repository's test vectors. -/
theorem C6_first_failure_order_witness :
    extract "" "6023947403358210776" "1" = (empty, some .malformedTraceID) ∧
    extract "8778793551513751462" "" "1" = (empty, some .malformedSpanID) :=
  ⟨C6_first_failure_order.1 "6023947403358210776" "1",
    C6_first_failure_order.2 "8778793551513751462" "1" 8778793551513751462
      (by decide) (by decide)⟩

/-- C7: an identifier text that parses as a 64-bit decimal but whose
zero-padded fixed-width hex form is not a well-formed identifier makes
`extract` fail with `InvalidTraceIDHeader` for the trace field and
`InvalidSpanIDHeader` for the span field. -/
theorem C7_invalid_id_headers :
    (∀ t s p v, parseUint t 10 = some v →
      TraceIDFromHex (leftPad '0' 32 (formatUint v 16)) = .error () →
      extract t s p = (empty, some .invalidTraceIDHeader)) ∧
    (∀ t s p vt vs, parseUint t 10 = some vt → vt ≠ 0 →
      parseUint s 10 = some vs →
      SpanIDFromHex (if (formatUint vs 16).length < 16
        then leftPad '0' 16 (formatUint vs 16) else formatUint vs 16) = .error () →
      extract t s p = (empty, some .invalidSpanIDHeader)) := by
  constructor
  · intro t s p v h herr
    exact extract_invalidTraceIDHeader h herr s p
  · intro t s p vt vs ht ht0 hs herr
    exact extract_invalidSpanIDHeader ht ht0 hs herr p

/-- Witness for C7 at the all-zero 19-digit decimal of the repository's
tests. -/
theorem C7_invalid_id_headers_witness :
    extract "0000000000000000000" "6023947403358210776" "1" =
      (empty, some .invalidTraceIDHeader) ∧
    extract "8778793551513751462" "0000000000000000000" "1" =
      (empty, some .invalidSpanIDHeader) :=
  ⟨C7_invalid_id_headers.1 "0000000000000000000" "6023947403358210776" "1" 0
      (by decide) (by rfl),
    C7_invalid_id_headers.2 "8778793551513751462" "0000000000000000000" "1"
      8778793551513751462 0 (by decide) (by decide) (by decide) (by rfl)⟩

/-- C8: for a span context whose trace identifier or span identifier is
invalid (zero), `Inject` performs no carrier writes at all. -/
theorem C8_inject_invalid_no_writes (sc : SpanContext)
    (h : sc.traceID = 0 ∨ sc.spanID = 0) : Inject sc = [] := by
  rw [Inject, if_pos h]

/-- Witness for C8 at a context with a zero trace identifier. -/
theorem C8_inject_invalid_no_writes_witness :
    Inject { traceID := 0, spanID := 5, sampled := true } = [] :=
  C8_inject_invalid_no_writes { traceID := 0, spanID := 5, sampled := true } (Or.inl rfl)

/-- C9: `Extract` returns the incoming context unchanged whenever the
internal extraction errors or yields an invalid span context, and
attaches the new remote span context exactly when extraction succeeds
with a valid one; extraction errors are never surfaced (the return type
carries no error). -/
theorem C9_extract_policy (ctx : Context) (t s p : String) :
    ((extract t s p).2 ≠ none ∨ (extract t s p).1.IsValid = false →
      Extract ctx t s p = ctx) ∧
    ((extract t s p).2 = none → (extract t s p).1.IsValid = true →
      Extract ctx t s p = Context.withRemote ctx (extract t s p).1) := by
  constructor
  · intro h
    show (if (extract t s p).2 ≠ none ∨ (extract t s p).1.IsValid = false
        then ctx else Context.withRemote ctx (extract t s p).1) = ctx
    rw [if_pos h]
  · intro h1 h2
    show (if (extract t s p).2 ≠ none ∨ (extract t s p).1.IsValid = false
        then ctx else Context.withRemote ctx (extract t s p).1)
      = Context.withRemote ctx (extract t s p).1
    rw [if_neg]
    rintro (hc | hc)
    · exact hc h1
    · rw [h2] at hc
      cases hc

/-- Witness for C9: a failing extraction leaves the context unchanged
and a successful one attaches the extracted span context. -/
theorem C9_extract_policy_witness :
    Extract .base "" "" "" = .base ∧
    Extract .base "8778793551513751462" "6023947403358210776" "1" =
      .withRemote .base
        { traceID := 8778793551513751462, spanID := 6023947403358210776,
          sampled := true } := by
  constructor
  · exact (C9_extract_policy .base "" "" "").1 (by decide)
  · have h := (C9_extract_policy .base "8778793551513751462" "6023947403358210776" "1").2
      (by decide) (by decide)
    rw [h]
    have hx : (extract "8778793551513751462" "6023947403358210776" "1").1 =
        { traceID := 8778793551513751462, spanID := 6023947403358210776,
          sampled := true } := by decide
    rw [hx]

/-- C10: the valid span context whose 128-bit trace identifier is
`2 ^ 64` (nonzero high 64 bits, all-zero low 64 bits) is injected as
three headers with trace-id value `"0"`, and feeding exactly those
header values back into `extract` fails with `InvalidTraceIDHeader`, so
inject followed by extract does not recover a context here. -/
theorem C10_inject_extract_gap :
    ({ traceID := 2 ^ 64, spanID := 1, sampled := false } : SpanContext).IsValid = true ∧
    (2 ^ 64 : Nat) % 2 ^ 64 = 0 ∧ (2 ^ 64 : Nat) / 2 ^ 64 ≠ 0 ∧
    Inject { traceID := 2 ^ 64, spanID := 1, sampled := false } =
      [(traceIDHeaderKey, "0"), (parentIDHeaderKey, "1"), (priorityHeaderKey, "0")] ∧
    extract "0" "1" "0" = (empty, some .invalidTraceIDHeader) ∧
    Extract .base "0" "1" "0" = .base := by
  refine ⟨by decide, by decide, by decide, by decide, by decide, by decide⟩

end Datadog
